import Mathlib

/-!
Verification of the Cryptograna market-maker decision engine against its
specification.

The repository ships the React trading-terminal front end (AdminPanel.tsx
with the BotDetails view, the CreateBot guided chat flow), shell scripts
with the engine's default configuration (scripts/init.sh), and the README
documentation of the decision engine.  The Python decision engine itself
(analyzers, aggregator, strategy evaluator, risk gate, portfolio ledger)
is referenced by scripts/run_bot.sh and the README but its sources are not
present; those components are modelled here from the specification text,
as marked on each definition.  The front-end components (BotDetails status
derivation and the CreateBot chat flow) are embedded directly from the
TypeScript sources.

Monetary amounts, scores, weights and thresholds are modelled as rational
numbers.
-/

set_option maxRecDepth 8192

namespace Cryptograna

/-! ## Portfolio Ledger (spec section 4.6, section 3 data model) -/

/-- Modelled from the spec: the per-bot slice of the `BotAllocation` record
(section 3) that the ledger mutations touch — allocated capital and realized
PnL.  The ledger component itself is absent from the sources; only the
FundSummary type and the admin fund endpoints appear in the front end. -/
structure BotAllocation where
  allocatedCapital : ℚ
  realizedPnL : ℚ
deriving DecidableEq

/-- Modelled from the spec: `PortfolioMaster` (section 3): totalBalance,
availableFunds, mapping botId → BotAllocation (an association list here). -/
structure PortfolioMaster where
  totalBalance : ℚ
  availableFunds : ℚ
  allocations : List (String × BotAllocation)
deriving DecidableEq

/-- Sum of `allocatedCapital` over all bot allocations. -/
def allocSum (l : List (String × BotAllocation)) : ℚ :=
  (l.map (fun e => e.2.allocatedCapital)).sum

/-- The ledger invariant of spec section 3:
`sum(allocation.allocatedCapital) ≤ totalBalance` and
`availableFunds = totalBalance − sum(allocatedCapital)`. -/
def ledgerInv (p : PortfolioMaster) : Prop :=
  allocSum p.allocations ≤ p.totalBalance ∧
  p.availableFunds = p.totalBalance - allocSum p.allocations

instance (p : PortfolioMaster) : Decidable (ledgerInv p) := by
  unfold ledgerInv; infer_instance

/-- Adds `amt` to the allocated capital of `bot`, creating the allocation
(with zero realized PnL) when the bot has none yet. -/
def addCapital (l : List (String × BotAllocation)) (bot : String) (amt : ℚ) :
    List (String × BotAllocation) :=
  match l with
  | [] => [(bot, ⟨amt, 0⟩)]
  | (b, a) :: rest =>
    if b = bot then (b, ⟨a.allocatedCapital + amt, a.realizedPnL⟩) :: rest
    else (b, a) :: addCapital rest bot amt

/-- Allocated capital currently recorded for `bot` (0 when absent). -/
def capitalOf (l : List (String × BotAllocation)) (bot : String) : ℚ :=
  match l with
  | [] => 0
  | (b, a) :: rest => if b = bot then a.allocatedCapital else capitalOf rest bot

/-- Realized PnL currently recorded for `bot` (0 when absent). -/
def pnlOf (l : List (String × BotAllocation)) (bot : String) : ℚ :=
  match l with
  | [] => 0
  | (b, a) :: rest => if b = bot then a.realizedPnL else pnlOf rest bot

/-- Sets the realized PnL of `bot` to zero, leaving capital untouched. -/
def clearPnl (l : List (String × BotAllocation)) (bot : String) :
    List (String × BotAllocation) :=
  match l with
  | [] => []
  | (b, a) :: rest =>
    if b = bot then (b, ⟨a.allocatedCapital, 0⟩) :: rest
    else (b, a) :: clearPnl rest bot

/-- Modelled from the spec: the four ledger mutations of section 4.6 —
allocate (create/increase a BotAllocation, decrementing availableFunds),
sweep profit (move realized PnL from a bot back to totalBalance and
availableFunds), withdraw, and transfer between bots. -/
inductive LedgerOp
  | allocate (bot : String) (amount : ℚ)
  | sweepProfit (bot : String)
  | withdraw (amount : ℚ)
  | transfer (fromBot toBot : String) (amount : ℚ)

/-- Modelled from the spec: the unchecked result a mutation would commit.
Allocate decrements availableFunds and raises the bot's capital; sweep moves
the bot's realized PnL into totalBalance/availableFunds; withdraw lowers
totalBalance and availableFunds; transfer moves capital between two bots. -/
def mutationResult (p : PortfolioMaster) : LedgerOp → PortfolioMaster
  | .allocate bot amt =>
      ⟨p.totalBalance, p.availableFunds - amt, addCapital p.allocations bot amt⟩
  | .sweepProfit bot =>
      ⟨p.totalBalance + pnlOf p.allocations bot,
       p.availableFunds + pnlOf p.allocations bot,
       clearPnl p.allocations bot⟩
  | .withdraw amt =>
      ⟨p.totalBalance - amt, p.availableFunds - amt, p.allocations⟩
  | .transfer fromBot toBot amt =>
      ⟨p.totalBalance, p.availableFunds,
       addCapital (addCapital p.allocations fromBot (-amt)) toBot amt⟩

/-- Basic well-formedness of the request itself: amounts are nonnegative and
a transfer does not move more capital than its source bot holds. -/
def opValid (p : PortfolioMaster) : LedgerOp → Bool
  | .allocate _ amt => decide (0 ≤ amt)
  | .sweepProfit _ => true
  | .withdraw amt => decide (0 ≤ amt)
  | .transfer fromBot _ amt =>
      decide (0 ≤ amt) && decide (amt ≤ capitalOf p.allocations fromBot)

/-- The sum-invariant re-validation of spec section 4.6, applied to the
state a mutation is about to commit. -/
def invariantCheck (p : PortfolioMaster) : Bool :=
  decide (allocSum p.allocations ≤ p.totalBalance)

/-- Modelled from the spec: a ledger mutation re-validates the sum invariant
before committing and rejects the operation on violation rather than
partially applying it (sections 4.6 and 7). -/
def runOp (p : PortfolioMaster) (op : LedgerOp) : Except String PortfolioMaster :=
  if opValid p op && invariantCheck (mutationResult p op) then
    Except.ok (mutationResult p op)
  else
    Except.error ("ledger mutation rejected")

/-- The ledger state after a mutation request: the committed state on
acceptance, the untouched previous state on rejection. -/
def applyOp (p : PortfolioMaster) (op : LedgerOp) : PortfolioMaster :=
  match runOp p op with
  | .ok q => q
  | .error _ => p

/-! ## Analyzer set and aggregator (spec sections 4.1 and 4.2) -/

/-- Modelled from the spec: the four weighted analyzer categories of
section 4.1 (the risk analyzer feeds the risk gate, not the aggregation). -/
inductive AnalyzerKind
  | technical
  | fundamental
  | sentiment
  | liquidity
deriving DecidableEq, Fintype

/-- The fixed enumeration of the analyzer categories. -/
def allAnalyzers : List AnalyzerKind :=
  [.technical, .fundamental, .sentiment, .liquidity]

/-- Modelled from the spec and scripts/init.sh: default analyzer weights —
TECHNICAL_WEIGHT=0.4, FUNDAMENTAL_WEIGHT=0.3, SENTIMENT_WEIGHT=0.2,
LIQUIDITY_WEIGHT=0.1. -/
def defaultWeight : AnalyzerKind → ℚ
  | .technical => 4/10
  | .fundamental => 3/10
  | .sentiment => 2/10
  | .liquidity => 1/10

/-- Modelled from the spec: `AnalysisSignal` (section 3) — a signed score and
a confidence per analyzer, produced fresh each cycle. -/
structure AnalysisSignal where
  score : ℚ
  confidence : ℚ
deriving DecidableEq

/-- The active subset of section 4.2: analyzers whose signal this cycle has
confidence > 0 (a zero-confidence signal is excluded from aggregation). -/
def activeAnalyzers (sig : AnalyzerKind → AnalysisSignal) : List AnalyzerKind :=
  allAnalyzers.filter (fun k => decide (0 < (sig k).confidence))

/-- Total configured weight of the active analyzers. -/
def activeWeightSum (sig : AnalyzerKind → AnalysisSignal) : ℚ :=
  ((activeAnalyzers sig).map defaultWeight).sum

/-- Modelled from the spec: the weight of an active analyzer after the
configured weights of the zero-confidence analyzers are redistributed
proportionally among the remaining ones (section 4.1), which renormalizes the
active weights to sum to 1 (section 4.2). -/
def renormWeight (sig : AnalyzerKind → AnalysisSignal) (k : AnalyzerKind) : ℚ :=
  defaultWeight k / activeWeightSum sig

/-- Modelled from the spec: composite score = Σ(weight_i × score_i) over
analyzers with confidence > 0, weights renormalized over the active subset. -/
def compositeScore (sig : AnalyzerKind → AnalysisSignal) : ℚ :=
  ((activeAnalyzers sig).map (fun k => renormWeight sig k * (sig k).score)).sum

/-- Modelled from the spec: composite confidence = weighted mean of the
active confidences. -/
def compositeConfidence (sig : AnalyzerKind → AnalysisSignal) : ℚ :=
  ((activeAnalyzers sig).map
    (fun k => renormWeight sig k * (sig k).confidence)).sum

/-- Modelled from the spec: the market-regime classification values. -/
inductive Regime
  | trending
  | ranging
  | volatile
deriving DecidableEq

/-- Thresholds for the rule-based regime classification of section 4.2. -/
structure RegimeConfig where
  volatilityThreshold : ℚ
  trendThreshold : ℚ
deriving DecidableEq

/-- Modelled from the spec: volatile if short-window volatility exceeds its
threshold, trending if directional persistence exceeds its threshold, else
ranging (section 4.2). -/
def classifyRegime (cfg : RegimeConfig) (volatility trendSlope : ℚ) : Regime :=
  if cfg.volatilityThreshold < volatility then .volatile
  else if cfg.trendThreshold < trendSlope then .trending
  else .ranging

/-- Modelled from the spec: `AggregatedSignal` (section 3). -/
structure AggregatedSignal where
  score : ℚ
  confidence : ℚ
  regime : Regime
deriving DecidableEq

/-- Modelled from the spec: the aggregation step.  It is a total function:
with zero active analyzers it yields composite score 0, confidence 0 and
regime ranging instead of failing (section 4.2). -/
def aggregate (sig : AnalyzerKind → AnalysisSignal)
    (volatility trendSlope : ℚ) (cfg : RegimeConfig) : AggregatedSignal :=
  if activeAnalyzers sig = [] then ⟨0, 0, .ranging⟩
  else ⟨compositeScore sig, compositeConfidence sig,
        classifyRegime cfg volatility trendSlope⟩

/-- The analyzer outputs of the worked example in spec section 8: technical
0.6 (confidence 0.9), fundamental 0.2 (0.5), sentiment −0.1 (0.8), liquidity
0.4 (0.6). -/
def exampleSignals : AnalyzerKind → AnalysisSignal
  | .technical => ⟨6/10, 9/10⟩
  | .fundamental => ⟨2/10, 5/10⟩
  | .sentiment => ⟨-1/10, 8/10⟩
  | .liquidity => ⟨4/10, 6/10⟩

/-- The all-idle analyzer outputs: every analyzer reports confidence 0. -/
def idleSignals : AnalyzerKind → AnalysisSignal := fun _ => ⟨0, 0⟩

/-! ## Strategy evaluator (spec section 4.3) -/

/-- Modelled from the spec: the closed set of strategy variants. -/
inductive StrategyKind
  | marketMaking
  | arbitrage
  | liquidityProvision
deriving DecidableEq

/-- Modelled from the spec and the README: strategy weights 0.4 / 0.3 / 0.3
for market-making / arbitrage / liquidity-provision. -/
def strategyWeight : StrategyKind → ℚ
  | .marketMaking => 4/10
  | .arbitrage => 3/10
  | .liquidityProvision => 3/10

/-- Pool observations consumed by the liquidity-provision evaluator. -/
structure PoolState where
  poolLiquidity : ℚ
  liquidityGap : ℚ
deriving DecidableEq

/-- Modelled from the spec and scripts/init.sh: MIN_LIQUIDITY=10000, the
liquidity-provision minimum pool liquidity. -/
def lpMinLiquidity : ℚ := 10000

/-- Modelled from the spec: liquidity-provision suitability is gated at zero
if observed pool liquidity < 10,000 units, otherwise scaled by the liquidity
gap (section 4.3). -/
def lpSuitability (pool : PoolState) : ℚ :=
  if pool.poolLiquidity < lpMinLiquidity then 0 else pool.liquidityGap

/-- Modelled from the spec: `StrategyCandidate` (section 3), one per strategy
variant per cycle. -/
structure StrategyCandidate where
  kind : StrategyKind
  suitability : ℚ
deriving DecidableEq

/-- Weighted suitability used to compare candidates. -/
def weightedSuitability (c : StrategyCandidate) : ℚ :=
  strategyWeight c.kind * c.suitability

/-- Modelled from the spec: the highest weighted-suitability candidate is
selected, and a strategy with suitability 0 is never selected even if
highest-weighted (section 4.3) — zero-suitability candidates are excluded
before the comparison. -/
def selectStrategy (cands : List StrategyCandidate) : Option StrategyCandidate :=
  (cands.filter (fun c => decide (0 < c.suitability))).argmax weightedSuitability

/-! ## Risk gate / circuit breaker (spec section 4.4) -/

/-- Modelled from the spec and scripts/init.sh: the hard risk limits —
MAX_DRAWDOWN=0.1, MAX_LEVERAGE=1.0, MIN_LIQUIDITY=10000. -/
structure RiskConfig where
  maxDrawdown : ℚ
  maxLeverage : ℚ
  minLiquidity : ℚ
deriving DecidableEq

/-- The defaults written by scripts/init.sh. -/
def defaultRiskConfig : RiskConfig := ⟨1/10, 1, 10000⟩

/-- The quantities the hard constraints of section 4.4 are evaluated
against: rolling drawdown, leverage, available liquidity, and the post-action
position against the strategy's max position cap. -/
structure RiskState where
  drawdown : ℚ
  leverage : ℚ
  availableLiquidity : ℚ
  postActionPosition : ℚ
  maxPositionCap : ℚ
deriving DecidableEq

/-- Reason string recorded when rolling drawdown exceeds the maximum. -/
def drawdownReason : String := "drawdown exceeds max drawdown"

/-- Reason string recorded when leverage exceeds the maximum. -/
def leverageReason : String := "leverage exceeds max leverage"

/-- Reason string recorded when available liquidity is below the minimum. -/
def liquidityReason : String := "liquidity below minimum"

/-- Reason string recorded when the post-action position exceeds the cap. -/
def positionReason : String := "position exceeds max position cap"

/-- Modelled from the spec: the ordered list of violated hard constraints
(section 4.4). -/
def violatedConstraints (cfg : RiskConfig) (s : RiskState) : List String :=
  (if cfg.maxDrawdown < s.drawdown then [drawdownReason] else []) ++
  (if cfg.maxLeverage < s.leverage then [leverageReason] else []) ++
  (if s.availableLiquidity < cfg.minLiquidity then [liquidityReason] else []) ++
  (if s.maxPositionCap < s.postActionPosition then [positionReason] else [])

/-- Modelled from the spec: `RiskVerdict` (section 3) — allowed flag plus the
ordered list of violated constraints. -/
structure RiskVerdict where
  allowed : Bool
  reasons : List String
deriving DecidableEq

/-- Modelled from the spec: the hard pass/fail check applied before any
action is emitted; any violation means allowed = false with all violated
reasons listed (section 4.4). -/
def riskGate (cfg : RiskConfig) (s : RiskState) : RiskVerdict :=
  ⟨(violatedConstraints cfg s).isEmpty, violatedConstraints cfg s⟩

/-- Modelled from the spec: the immutable `Action` value (section 3). -/
structure TradingAction where
  kind : StrategyKind
  pair : String
  spreadLow : ℚ
  spreadHigh : ℚ
  orderSize : ℚ
  maxPosition : ℚ
  rebalanceThreshold : ℚ
deriving DecidableEq

/-- Modelled from the spec: the cycle emits an action only when the risk
gate allows it; on denial the action generator is not invoked and no action
is emitted this cycle (section 4.4).  The generator is passed as a thunk so
the denial branch never touches it. -/
def gatedAction (cfg : RiskConfig) (s : RiskState)
    (generator : Unit → TradingAction) : Option TradingAction :=
  if (riskGate cfg s).allowed then some (generator ()) else none

/-! ## Neutral-signal HOLD emission (spec sections 4.2 and 7) -/

/-- Modelled from the spec: the decision emitted for a cycle — either a HOLD
(no state change) or a concrete trading action. -/
inductive TradeDecision
  | hold
  | execute (a : TradingAction)
deriving DecidableEq

/-- Modelled from the spec: when the composite signal is neutral (all
analyzers low-confidence, composite confidence 0) a HOLD action is emitted
(section 7). -/
def emitDecision (agg : AggregatedSignal) (a : TradingAction) : TradeDecision :=
  if agg.confidence = 0 then .hold else .execute a

/-- Modelled from the spec: effect of a decision on the bot's position; a
HOLD changes no state. -/
def applyDecision (d : TradeDecision) (position : ℚ) : ℚ :=
  match d with
  | .hold => position
  | .execute a => position + a.orderSize

/-! ## Bot state machine and circuit breaker (spec sections 4.4 and 4.7) -/

/-- The bot status values, as in the spec state machine and as displayed by
the front end (BotsList / BotDetails). -/
inductive BotStatus
  | Created
  | Active
  | Paused
  | Stopped
  | Removed
deriving DecidableEq

/-- Modelled from the spec: the per-bot circuit-breaker state — the status
plus the count of consecutive risk-gate denials. -/
structure BotState where
  status : BotStatus
  consecutiveFailures : Nat
deriving DecidableEq

/-- Modelled from the spec: the events driving the breaker — a decision
cycle whose risk gate failed, one that passed, and the manual operator
reset. -/
inductive BotEvent
  | gateFail
  | gatePass
  | manualReset
deriving DecidableEq

/-- Modelled from the spec: if the same bot fails the gate for N consecutive
cycles the bot transitions Active/Paused → Stopped automatically (circuit
breaker trip) and requires manual reset to Active (section 4.4); a gate pass
resets the consecutive-denial count. -/
def breakerStep (n : Nat) (st : BotState) (e : BotEvent) : BotState :=
  match e, st.status with
  | .gateFail, .Active | .gateFail, .Paused =>
      if n ≤ st.consecutiveFailures + 1 then
        ⟨.Stopped, st.consecutiveFailures + 1⟩
      else
        ⟨st.status, st.consecutiveFailures + 1⟩
  | .gateFail, _ => st
  | .gatePass, .Active | .gatePass, .Paused => ⟨st.status, 0⟩
  | .gatePass, _ => st
  | .manualReset, .Stopped => ⟨.Active, 0⟩
  | .manualReset, _ => st

/-- Folds a sequence of breaker events over a bot state. -/
def applyEvents (n : Nat) (st : BotState) (evts : List BotEvent) : BotState :=
  evts.foldl (breakerStep n) st

/-- Modelled from the spec: only Active bots run decision cycles; Paused and
Stopped bots run none (section 4.7). -/
def runsDecisionCycle : BotStatus → Bool
  | .Active => true
  | _ => false

/-! ## BotDetails view (trading-terminal AdminPanel.tsx)

Embedded from the TypeScript source: the status derivation
`isInactive = botId.includes("USDT") || botId.includes("Paused") || ...`,
the warning banner rendered when `isInactive`, and the four control buttons
(Pause, Stop, Edit, Remove), each rendered with `disabled={!!isInactive}`. -/

/-- One step of the substring scan: does `needle` start at the head of
`hay`?  (Embeds the prefix comparison behind JavaScript `includes`.) -/
def charsStartWith : List Char → List Char → Bool
  | [], _ => true
  | _ :: _, [] => false
  | a :: as, b :: bs => a = b && charsStartWith as bs

/-- Does `needle` occur contiguously anywhere in `hay`? -/
def charsContain (hay needle : List Char) : Bool :=
  match hay with
  | [] => needle.isEmpty
  | _ :: rest => charsStartWith needle hay || charsContain rest needle

/-- JavaScript `String.prototype.includes` on our strings. -/
def strIncludes (s sub : String) : Bool := charsContain s.toList sub.toList

/-- AdminPanel.tsx, BotDetails: `isInactive = botId && (botId.includes("USDT")
|| botId.includes("Paused") || botId.includes("Stopped") ||
botId.includes("Removed"))`. -/
def isInactive (botId : String) : Bool :=
  strIncludes botId ("USDT") || strIncludes botId ("Paused") ||
  strIncludes botId ("Stopped") || strIncludes botId ("Removed")

/-- AdminPanel.tsx, BotDetails: the status shown for a bot — `Paused`,
`Stopped` or `Removed` by substring when inactive (defaulting to `Stopped`),
`Active` otherwise. -/
def derivedStatus (botId : String) : BotStatus :=
  if isInactive botId then
    if strIncludes botId ("Paused") then .Paused
    else if strIncludes botId ("Stopped") then .Stopped
    else if strIncludes botId ("Removed") then .Removed
    else .Stopped
  else .Active

/-- AdminPanel.tsx, BotDetails: the Pause button's `disabled` flag. -/
def pauseDisabled (botId : String) : Bool := isInactive botId

/-- AdminPanel.tsx, BotDetails: the Stop button's `disabled` flag. -/
def stopDisabled (botId : String) : Bool := isInactive botId

/-- AdminPanel.tsx, BotDetails: the Edit button's `disabled` flag. -/
def editDisabled (botId : String) : Bool := isInactive botId

/-- AdminPanel.tsx, BotDetails: the Remove button's `disabled` flag. -/
def removeDisabled (botId : String) : Bool := isInactive botId

/-- AdminPanel.tsx, BotDetails: whether the read-only warning banner
(`This bot is inactive. Data is read-only and actions are disabled.`) is
rendered. -/
def warningBannerShown (botId : String) : Bool := isInactive botId

/-! ## CreateBot guided chat flow (CreateBot.tsx, src/unnamed/part_000) -/

/-- CreateBot.tsx: the `BotDraft` record filled by the guided flow. -/
structure BotDraft where
  pair : String
  poolAddress : String
  allocation : String
  updateInterval : String
  notes : String
deriving DecidableEq

/-- CreateBot.tsx: the initial draft — every field the empty string. -/
def emptyDraft : BotDraft := ⟨"", "", "", "", ""⟩

/-- The component state the claim is about: the `step` counter and the
draft.  (The chat transcript is display-only and not modelled.) -/
structure CreateBotState where
  step : Nat
  botDraft : BotDraft
deriving DecidableEq

/-- CreateBot.tsx: initial state — `useState(0)` and the empty draft. -/
def initialCreateBotState : CreateBotState := ⟨0, emptyDraft⟩

/-- JavaScript `!input.trim()`: the submission guard fires exactly when the
input contains only whitespace. -/
def blankInput (input : String) : Bool := input.toList.all Char.isWhitespace

/-- JavaScript `input.toLowerCase()` on our strings. -/
def lowercase (s : String) : String := String.mk (s.toList.map Char.toLower)

/-- CreateBot.tsx `handleChatSubmit`: the guided-flow transition on `step`
and `botDraft`.  Blank input returns early; steps 0–4 store the input in
`pair`, `poolAddress`, `allocation`, `updateInterval`, `notes` in that order
(notes become empty when the lowercased input is `no`) and advance the step;
from step 5 the lowercased input `restart` resets step and draft, and any
other input changes nothing. -/
def handleChatSubmit (st : CreateBotState) (input : String) : CreateBotState :=
  if blankInput input then st
  else if st.step = 0 then
    ⟨1, ⟨input, st.botDraft.poolAddress, st.botDraft.allocation,
         st.botDraft.updateInterval, st.botDraft.notes⟩⟩
  else if st.step = 1 then
    ⟨2, ⟨st.botDraft.pair, input, st.botDraft.allocation,
         st.botDraft.updateInterval, st.botDraft.notes⟩⟩
  else if st.step = 2 then
    ⟨3, ⟨st.botDraft.pair, st.botDraft.poolAddress, input,
         st.botDraft.updateInterval, st.botDraft.notes⟩⟩
  else if st.step = 3 then
    ⟨4, ⟨st.botDraft.pair, st.botDraft.poolAddress, st.botDraft.allocation,
         input, st.botDraft.notes⟩⟩
  else if st.step = 4 then
    ⟨5, ⟨st.botDraft.pair, st.botDraft.poolAddress, st.botDraft.allocation,
         st.botDraft.updateInterval,
         if lowercase input = "no" then "" else input⟩⟩
  else if lowercase input = "restart" then
    ⟨0, emptyDraft⟩
  else st

/-- Runs the chat flow from the initial component state over a list of
submitted inputs. -/
def runChat (inputs : List String) : CreateBotState :=
  inputs.foldl handleChatSubmit initialCreateBotState

/-! ## Helper lemmas -/

theorem allocSum_cons (e : String × BotAllocation) (l : List (String × BotAllocation)) :
    allocSum (e :: l) = e.2.allocatedCapital + allocSum l := by
  simp [allocSum]

theorem allocSum_addCapital (l : List (String × BotAllocation)) (bot : String) (amt : ℚ) :
    allocSum (addCapital l bot amt) = allocSum l + amt := by
  induction l with
  | nil => simp [addCapital, allocSum]
  | cons e rest ih =>
    obtain ⟨b, a⟩ := e
    by_cases h : b = bot
    · simp [addCapital, h, allocSum_cons]
      ring
    · simp [addCapital, h, allocSum_cons, ih]
      ring

theorem allocSum_clearPnl (l : List (String × BotAllocation)) (bot : String) :
    allocSum (clearPnl l bot) = allocSum l := by
  induction l with
  | nil => rfl
  | cons e rest ih =>
    obtain ⟨b, a⟩ := e
    by_cases h : b = bot
    · simp [clearPnl, h, allocSum_cons]
    · simp [clearPnl, h, allocSum_cons, ih]

/-! ## C1 and C2: ledger invariant -/

/-- C1: after every Portfolio Ledger mutation (allocate, sweep profit,
withdraw, transfer), the portfolio state satisfies: the sum of
allocatedCapital over all BotAllocations is at most totalBalance, and
availableFunds equals totalBalance minus that sum. -/
theorem ledger_invariant_after_mutation (p : PortfolioMaster) (op : LedgerOp)
    (hinv : ledgerInv p) : ledgerInv (applyOp p op) := by
  unfold applyOp runOp
  by_cases hok : (opValid p op && invariantCheck (mutationResult p op)) = true
  · rw [if_pos hok]
    show ledgerInv (mutationResult p op)
    obtain ⟨hsum, havail⟩ := hinv
    have hcheck : allocSum (mutationResult p op).allocations ≤
        (mutationResult p op).totalBalance := by
      have h2 := (Bool.and_eq_true _ _).mp hok |>.2
      simpa [invariantCheck] using h2
    refine ⟨hcheck, ?_⟩
    cases op with
    | allocate bot amt =>
      simp only [mutationResult, allocSum_addCapital]
      rw [havail]; ring
    | sweepProfit bot =>
      simp only [mutationResult, allocSum_clearPnl]
      rw [havail]; ring
    | withdraw amt =>
      simp only [mutationResult]
      rw [havail]; ring
    | transfer fromBot toBot amt =>
      simp only [mutationResult, allocSum_addCapital]
      rw [havail]; ring
  · rw [if_neg hok]
    exact hinv

/-- Witness for C1: the AdminPanel fund summary (total 25,000, available
15,000, allocated 10,000) with a fresh 5,000 allocation keeps the invariant. -/
theorem ledger_invariant_after_mutation_witness :
    ledgerInv (⟨25000, 15000, [(("SOL/USDC"), ⟨10000, 0⟩)]⟩ : PortfolioMaster) ∧
    ledgerInv (applyOp ⟨25000, 15000, [(("SOL/USDC"), ⟨10000, 0⟩)]⟩
      (.allocate ("BTC/SOL") 5000)) :=
  ⟨by norm_num [ledgerInv, allocSum],
   ledger_invariant_after_mutation _ _ (by norm_num [ledgerInv, allocSum])⟩

/-- C2: a ledger mutation whose application would push the allocation sum
above totalBalance is rejected synchronously and the ledger state is exactly
unchanged — the mutation is never partially applied. -/
theorem ledger_rejects_violating_mutation (p : PortfolioMaster) (op : LedgerOp)
    (hviol : ¬ allocSum (mutationResult p op).allocations ≤
      (mutationResult p op).totalBalance) :
    runOp p op = Except.error ("ledger mutation rejected") ∧ applyOp p op = p := by
  have hc : invariantCheck (mutationResult p op) = false := by
    simp [invariantCheck, hviol]
  have hcond : (opValid p op && invariantCheck (mutationResult p op)) = false := by
    simp [hc]
  constructor
  · simp [runOp, hcond]
  · simp [applyOp, runOp, hcond]

/-- Witness for C2: the spec example — an allocation request of 5,000
against availableFunds 3,000 (total 10,000, allocated 7,000) is rejected and
the ledger is unchanged. -/
theorem ledger_rejects_violating_mutation_witness :
    (¬ allocSum (mutationResult ⟨10000, 3000, [(("SOL/USDC"), ⟨7000, 0⟩)]⟩
        (.allocate ("SOL/USDC") 5000)).allocations ≤
      (mutationResult ⟨10000, 3000, [(("SOL/USDC"), ⟨7000, 0⟩)]⟩
        (.allocate ("SOL/USDC") 5000)).totalBalance) ∧
    applyOp ⟨10000, 3000, [(("SOL/USDC"), ⟨7000, 0⟩)]⟩
      (.allocate ("SOL/USDC") 5000) =
      ⟨10000, 3000, [(("SOL/USDC"), ⟨7000, 0⟩)]⟩ :=
  ⟨by norm_num [mutationResult, addCapital, allocSum],
   (ledger_rejects_violating_mutation _ _
     (by norm_num [mutationResult, addCapital, allocSum])).2⟩

/-! ## Aggregator lemmas -/

theorem qsum_map_nonneg {α : Type} (l : List α) (f : α → ℚ)
    (h : ∀ x ∈ l, 0 ≤ f x) : 0 ≤ (l.map f).sum := by
  induction l with
  | nil => simp
  | cons a l ih =>
    simp only [List.map_cons, List.sum_cons]
    have h1 := h a (by simp)
    have h2 := ih (fun x hx => h x (by simp [hx]))
    linarith

theorem qsum_map_mul_right {α : Type} (l : List α) (f : α → ℚ) (c : ℚ) :
    (l.map (fun k => f k * c)).sum = (l.map f).sum * c := by
  induction l with
  | nil => simp
  | cons a l ih => simp [List.map_cons, List.sum_cons, ih, add_mul]

theorem defaultWeight_pos (k : AnalyzerKind) : 0 < defaultWeight k := by
  cases k <;> norm_num [defaultWeight]

theorem activeWeightSum_nonneg (sig : AnalyzerKind → AnalysisSignal) :
    0 ≤ activeWeightSum sig :=
  qsum_map_nonneg _ _ (fun k _ => le_of_lt (defaultWeight_pos k))

theorem activeWeightSum_pos (sig : AnalyzerKind → AnalysisSignal)
    (h : activeAnalyzers sig ≠ []) : 0 < activeWeightSum sig := by
  cases hA : activeAnalyzers sig with
  | nil => exact absurd hA h
  | cons k rest =>
    unfold activeWeightSum
    rw [hA]
    simp only [List.map_cons, List.sum_cons]
    have h1 := defaultWeight_pos k
    have h2 : 0 ≤ (rest.map defaultWeight).sum :=
      qsum_map_nonneg _ _ (fun x _ => le_of_lt (defaultWeight_pos x))
    linarith

theorem renormWeight_nonneg (sig : AnalyzerKind → AnalysisSignal)
    (k : AnalyzerKind) : 0 ≤ renormWeight sig k :=
  div_nonneg (le_of_lt (defaultWeight_pos k)) (activeWeightSum_nonneg sig)

theorem renormWeight_sum_one (sig : AnalyzerKind → AnalysisSignal)
    (h : activeAnalyzers sig ≠ []) :
    ((activeAnalyzers sig).map (renormWeight sig)).sum = 1 := by
  have hW := activeWeightSum_pos sig h
  have e1 : (activeAnalyzers sig).map (renormWeight sig)
      = (activeAnalyzers sig).map
          (fun k => defaultWeight k * (activeWeightSum sig)⁻¹) := by
    simp [renormWeight, div_eq_mul_inv]
  rw [e1, qsum_map_mul_right]
  rw [show ((activeAnalyzers sig).map defaultWeight).sum = activeWeightSum sig
    from rfl]
  exact mul_inv_cancel₀ (ne_of_gt hW)

theorem compositeScore_bounds (sig : AnalyzerKind → AnalysisSignal)
    (hs : ∀ k, -1 ≤ (sig k).score ∧ (sig k).score ≤ 1)
    (h : activeAnalyzers sig ≠ []) :
    -1 ≤ compositeScore sig ∧ compositeScore sig ≤ 1 := by
  have h1 := renormWeight_sum_one sig h
  unfold compositeScore
  constructor
  · have hle : ((activeAnalyzers sig).map
        (fun k => renormWeight sig k * (-1))).sum ≤
        ((activeAnalyzers sig).map
          (fun k => renormWeight sig k * (sig k).score)).sum := by
      apply List.sum_le_sum
      intro k _
      exact mul_le_mul_of_nonneg_left (hs k).1 (renormWeight_nonneg sig k)
    have heq : ((activeAnalyzers sig).map
        (fun k => renormWeight sig k * (-1))).sum = -1 := by
      rw [qsum_map_mul_right, h1]; ring
    linarith
  · have hle : ((activeAnalyzers sig).map
        (fun k => renormWeight sig k * (sig k).score)).sum ≤
        ((activeAnalyzers sig).map (fun k => renormWeight sig k * 1)).sum := by
      apply List.sum_le_sum
      intro k _
      exact mul_le_mul_of_nonneg_left (hs k).2 (renormWeight_nonneg sig k)
    have heq : ((activeAnalyzers sig).map
        (fun k => renormWeight sig k * 1)).sum = 1 := by
      rw [qsum_map_mul_right, h1]; ring
    linarith

theorem compositeConfidence_bounds (sig : AnalyzerKind → AnalysisSignal)
    (hc : ∀ k, 0 ≤ (sig k).confidence ∧ (sig k).confidence ≤ 1)
    (h : activeAnalyzers sig ≠ []) :
    0 ≤ compositeConfidence sig ∧ compositeConfidence sig ≤ 1 := by
  have h1 := renormWeight_sum_one sig h
  unfold compositeConfidence
  constructor
  · exact qsum_map_nonneg _ _
      (fun k _ => mul_nonneg (renormWeight_nonneg sig k) (hc k).1)
  · have hle : ((activeAnalyzers sig).map
        (fun k => renormWeight sig k * (sig k).confidence)).sum ≤
        ((activeAnalyzers sig).map (fun k => renormWeight sig k * 1)).sum := by
      apply List.sum_le_sum
      intro k _
      exact mul_le_mul_of_nonneg_left (hc k).2 (renormWeight_nonneg sig k)
    have heq : ((activeAnalyzers sig).map
        (fun k => renormWeight sig k * 1)).sum = 1 := by
      rw [qsum_map_mul_right, h1]; ring
    linarith

/-! ## C4, C5, C6: aggregator -/

/-- C4: for every valid analyzer input set (each score in [−1,1] and
confidence in [0,1]), the aggregator's composite score lies in [−1,1] and its
composite confidence lies in [0,1]. -/
theorem aggregated_signal_in_range (sig : AnalyzerKind → AnalysisSignal)
    (volatility trendSlope : ℚ) (cfg : RegimeConfig)
    (hvalid : ∀ k, (-1 ≤ (sig k).score ∧ (sig k).score ≤ 1) ∧
      (0 ≤ (sig k).confidence ∧ (sig k).confidence ≤ 1)) :
    (-1 ≤ (aggregate sig volatility trendSlope cfg).score ∧
      (aggregate sig volatility trendSlope cfg).score ≤ 1) ∧
    (0 ≤ (aggregate sig volatility trendSlope cfg).confidence ∧
      (aggregate sig volatility trendSlope cfg).confidence ≤ 1) := by
  by_cases hA : activeAnalyzers sig = []
  · unfold aggregate
    rw [if_pos hA]
    norm_num
  · have hs := compositeScore_bounds sig (fun k => (hvalid k).1) hA
    have hc := compositeConfidence_bounds sig (fun k => (hvalid k).2) hA
    unfold aggregate
    rw [if_neg hA]
    exact ⟨hs, hc⟩

/-- Witness for C4: the spec section 8 worked example signals yield an
in-range composite. -/
theorem aggregated_signal_in_range_witness :
    (∀ k, (-1 ≤ (exampleSignals k).score ∧ (exampleSignals k).score ≤ 1) ∧
      (0 ≤ (exampleSignals k).confidence ∧ (exampleSignals k).confidence ≤ 1)) ∧
    (-1 ≤ (aggregate exampleSignals 1 1 ⟨2, 2⟩).score ∧
      (aggregate exampleSignals 1 1 ⟨2, 2⟩).score ≤ 1) := by
  have hv : ∀ k, (-1 ≤ (exampleSignals k).score ∧ (exampleSignals k).score ≤ 1) ∧
      (0 ≤ (exampleSignals k).confidence ∧ (exampleSignals k).confidence ≤ 1) := by
    intro k
    cases k <;> norm_num [exampleSignals]
  exact ⟨hv, (aggregated_signal_in_range exampleSignals 1 1 ⟨2, 2⟩ hv).1⟩

/-- C5: over a nonempty active (confidence > 0) subset, the renormalized
weights — each zero-confidence analyzer's configured weight redistributed
proportionally among the remaining analyzers, from the defaults 0.4 / 0.3 /
0.2 / 0.1 — sum exactly to 1, and the composite score is
Σ(weight_i × score_i) over that subset. -/
theorem renormalized_weights_sum_one (sig : AnalyzerKind → AnalysisSignal)
    (h : activeAnalyzers sig ≠ []) :
    ((activeAnalyzers sig).map (renormWeight sig)).sum = 1 ∧
    compositeScore sig =
      ((activeAnalyzers sig).map
        (fun k => renormWeight sig k * (sig k).score)).sum ∧
    (∀ k, k ∈ activeAnalyzers sig ↔ 0 < (sig k).confidence) ∧
    (∀ k, renormWeight sig k =
      defaultWeight k +
        (1 - activeWeightSum sig) * (defaultWeight k / activeWeightSum sig)) := by
  have hW := activeWeightSum_pos sig h
  refine ⟨renormWeight_sum_one sig h, rfl, ?_, ?_⟩
  · intro k
    constructor
    · intro hk
      have hmem := List.mem_filter.mp hk
      simpa using hmem.2
    · intro hk
      apply List.mem_filter.mpr
      refine ⟨?_, by simpa using hk⟩
      cases k <;> simp [allAnalyzers]
  · intro k
    have hne := ne_of_gt hW
    simp only [renormWeight]
    field_simp
    ring

/-- Witness for C5: on the spec section 8 example signals all four analyzers
are active and the renormalized weights sum to 1. -/
theorem renormalized_weights_sum_one_witness :
    activeAnalyzers exampleSignals ≠ [] ∧
    ((activeAnalyzers exampleSignals).map (renormWeight exampleSignals)).sum = 1 := by
  have h : activeAnalyzers exampleSignals ≠ [] := by
    with_unfolding_all decide
  exact ⟨h, (renormalized_weights_sum_one exampleSignals h).1⟩

/-- C6: aggregation is total; when every analyzer reports confidence 0 it
returns composite score 0, composite confidence 0 and regime ranging, and the
cycle then emits a HOLD decision that changes no state. -/
theorem aggregation_neutral_when_all_idle (sig : AnalyzerKind → AnalysisSignal)
    (volatility trendSlope : ℚ) (cfg : RegimeConfig) (a : TradingAction)
    (h : ∀ k, (sig k).confidence = 0) :
    aggregate sig volatility trendSlope cfg = ⟨0, 0, .ranging⟩ ∧
    emitDecision (aggregate sig volatility trendSlope cfg) a = .hold ∧
    (∀ position : ℚ,
      applyDecision (emitDecision (aggregate sig volatility trendSlope cfg) a)
        position = position) := by
  have hA : activeAnalyzers sig = [] := by
    simp [activeAnalyzers, allAnalyzers, h]
  have h1 : aggregate sig volatility trendSlope cfg = ⟨0, 0, .ranging⟩ := by
    unfold aggregate
    rw [if_pos hA]
  have h2 : emitDecision (aggregate sig volatility trendSlope cfg) a = .hold := by
    rw [h1]
    simp [emitDecision]
  refine ⟨h1, h2, fun position => ?_⟩
  rw [h2]
  rfl

/-- Witness for C6: the all-idle signals aggregate to the neutral signal. -/
theorem aggregation_neutral_when_all_idle_witness :
    (∀ k, (idleSignals k).confidence = 0) ∧
    aggregate idleSignals 0 0 ⟨1, 1⟩ = ⟨0, 0, .ranging⟩ := by
  have h : ∀ k, (idleSignals k).confidence = 0 := fun _ => rfl
  exact ⟨h, (aggregation_neutral_when_all_idle idleSignals 0 0 ⟨1, 1⟩
    ⟨.marketMaking, ("SOL/USDC"), 0, 0, 1, 1, 0⟩ h).1⟩

/-! ## C3: risk gate denies on excessive drawdown -/

/-- C3: whenever rolling drawdown exceeds the configured maximum, the risk
gate returns allowed = false with every violated constraint listed in the
reasons, and no action is emitted that cycle regardless of the composite
signal — the action generator is never invoked. -/
theorem risk_gate_denies_on_drawdown (cfg : RiskConfig) (s : RiskState)
    (hdd : cfg.maxDrawdown < s.drawdown) :
    (riskGate cfg s).allowed = false ∧
    drawdownReason ∈ (riskGate cfg s).reasons ∧
    (cfg.maxLeverage < s.leverage → leverageReason ∈ (riskGate cfg s).reasons) ∧
    (s.availableLiquidity < cfg.minLiquidity →
      liquidityReason ∈ (riskGate cfg s).reasons) ∧
    (s.maxPositionCap < s.postActionPosition →
      positionReason ∈ (riskGate cfg s).reasons) ∧
    (∀ generator, gatedAction cfg s generator = none) := by
  have hr : violatedConstraints cfg s = drawdownReason ::
      ((if cfg.maxLeverage < s.leverage then [leverageReason] else []) ++
       ((if s.availableLiquidity < cfg.minLiquidity then [liquidityReason] else []) ++
        (if s.maxPositionCap < s.postActionPosition then [positionReason] else []))) := by
    unfold violatedConstraints
    rw [if_pos hdd]
    simp [List.append_assoc]
  have hallowed : (riskGate cfg s).allowed = false := by
    simp [riskGate, hr]
  refine ⟨hallowed, ?_, ?_, ?_, ?_, ?_⟩
  · show drawdownReason ∈ violatedConstraints cfg s
    rw [hr]
    exact List.mem_cons_self _ _
  · intro hl
    show leverageReason ∈ violatedConstraints cfg s
    simp [violatedConstraints, if_pos hl]
  · intro hl
    show liquidityReason ∈ violatedConstraints cfg s
    simp [violatedConstraints, if_pos hl]
  · intro hl
    show positionReason ∈ violatedConstraints cfg s
    simp [violatedConstraints, if_pos hl]
  · intro generator
    simp [gatedAction, hallowed]

/-- Witness for C3: the spec example — drawdown 0.12 against the default max
drawdown 0.1 is denied and no action is emitted. -/
theorem risk_gate_denies_on_drawdown_witness :
    defaultRiskConfig.maxDrawdown <
      (⟨12/100, 1/2, 20000, 50, 100⟩ : RiskState).drawdown ∧
    (riskGate defaultRiskConfig ⟨12/100, 1/2, 20000, 50, 100⟩).allowed = false := by
  have h : defaultRiskConfig.maxDrawdown <
      (⟨12/100, 1/2, 20000, 50, 100⟩ : RiskState).drawdown := by
    norm_num [defaultRiskConfig]
  exact ⟨h, (risk_gate_denies_on_drawdown defaultRiskConfig _ h).1⟩

/-! ## C7: liquidity-provision gating and zero-suitability exclusion -/

/-- C7: with observed pool liquidity below 10,000 units the
liquidity-provision suitability is exactly 0, and a strategy candidate with
suitability 0 is never selected even if it has the highest weighted
suitability. -/
theorem lp_gated_and_zero_never_selected (pool : PoolState)
    (hliq : pool.poolLiquidity < lpMinLiquidity) :
    lpSuitability pool = 0 ∧
    (∀ (cands : List StrategyCandidate) (c : StrategyCandidate),
      selectStrategy cands = some c → c.suitability ≠ 0) := by
  constructor
  · unfold lpSuitability
    rw [if_pos hliq]
  · intro cands c hsel
    have hmem : c ∈ cands.filter (fun c => decide (0 < c.suitability)) :=
      List.argmax_mem hsel
    have hpos : 0 < c.suitability := by
      have h2 := (List.mem_filter.mp hmem).2
      simpa using h2
    exact ne_of_gt hpos

/-- Witness for C7: the spec example — pool liquidity 8,000 against the
minimum 10,000 gives liquidity-provision suitability 0. -/
theorem lp_gated_and_zero_never_selected_witness :
    (⟨8000, 500⟩ : PoolState).poolLiquidity < lpMinLiquidity ∧
    lpSuitability ⟨8000, 500⟩ = 0 := by
  have h : (⟨8000, 500⟩ : PoolState).poolLiquidity < lpMinLiquidity := by
    norm_num [lpMinLiquidity]
  exact ⟨h, (lp_gated_and_zero_never_selected ⟨8000, 500⟩ h).1⟩

/-! ## C8: circuit breaker -/

theorem applyEvents_stopped (n f m : Nat) :
    applyEvents n ⟨.Stopped, f⟩ (List.replicate m .gateFail) = ⟨.Stopped, f⟩ := by
  induction m with
  | zero => rfl
  | succ m ih =>
    rw [List.replicate_succ]
    exact ih

theorem breaker_trip_aux (n : Nat) : ∀ (m : Nat) (st : BotState),
    (st.status = .Active ∨ st.status = .Paused) → 1 ≤ m →
    n ≤ st.consecutiveFailures + m →
    (applyEvents n st (List.replicate m .gateFail)).status = .Stopped := by
  intro m
  induction m with
  | zero =>
    intro st _ h1 _
    exact absurd h1 (by omega)
  | succ m ih =>
    intro st hst hm hn
    obtain ⟨stat, f⟩ := st
    have hn2 : n ≤ f + (m + 1) := hn
    rw [List.replicate_succ]
    show (applyEvents n (breakerStep n ⟨stat, f⟩ .gateFail)
      (List.replicate m .gateFail)).status = .Stopped
    rcases hst with h | h <;> subst h
    · by_cases htrip : n ≤ f + 1
      · have hstep : breakerStep n ⟨.Active, f⟩ .gateFail = ⟨.Stopped, f + 1⟩ := by
          simp [breakerStep, htrip]
        rw [hstep, applyEvents_stopped]
      · have hstep : breakerStep n ⟨.Active, f⟩ .gateFail = ⟨.Active, f + 1⟩ := by
          simp [breakerStep, htrip]
        rw [hstep]
        exact ih ⟨.Active, f + 1⟩ (Or.inl rfl) (by omega)
          (by show n ≤ f + 1 + m; omega)
    · by_cases htrip : n ≤ f + 1
      · have hstep : breakerStep n ⟨.Paused, f⟩ .gateFail = ⟨.Stopped, f + 1⟩ := by
          simp [breakerStep, htrip]
        rw [hstep, applyEvents_stopped]
      · have hstep : breakerStep n ⟨.Paused, f⟩ .gateFail = ⟨.Paused, f + 1⟩ := by
          simp [breakerStep, htrip]
        rw [hstep]
        exact ih ⟨.Paused, f + 1⟩ (Or.inr rfl) (by omega)
          (by show n ≤ f + 1 + m; omega)

/-- C8: a bot in status Active or Paused that fails the risk gate for N
consecutive cycles (default 3) transitions automatically to Stopped (circuit
breaker trip); a Stopped bot runs no decision cycles, is left unchanged by
every event other than the manual reset, and returns to Active on the manual
operator reset. -/
theorem circuit_breaker_stops_bot (n : Nat) (st : BotState)
    (hn : 1 ≤ n) (hst : st.status = .Active ∨ st.status = .Paused)
    (hf : st.consecutiveFailures = 0) :
    (applyEvents n st (List.replicate n .gateFail)).status = .Stopped ∧
    runsDecisionCycle .Stopped = false ∧
    (∀ (f : Nat) (e : BotEvent), e ≠ .manualReset →
      breakerStep n ⟨.Stopped, f⟩ e = ⟨.Stopped, f⟩) ∧
    (∀ f : Nat, breakerStep n ⟨.Stopped, f⟩ .manualReset = ⟨.Active, 0⟩) := by
  refine ⟨breaker_trip_aux n n st hst hn (by omega), rfl, ?_, fun f => rfl⟩
  intro f e he
  cases e with
  | gateFail => rfl
  | gatePass => rfl
  | manualReset => exact absurd rfl he

/-- Witness for C8: with the default N = 3, an Active bot with no prior
consecutive denials is Stopped after three straight gate failures. -/
theorem circuit_breaker_stops_bot_witness :
    1 ≤ 3 ∧
    (applyEvents 3 ⟨.Active, 0⟩ (List.replicate 3 .gateFail)).status = .Stopped :=
  ⟨by decide,
   (circuit_breaker_stops_bot 3 ⟨.Active, 0⟩ (by decide) (Or.inl rfl) rfl).1⟩

/-! ## C9: BotDetails read-only controls -/

/-- C9: in the BotDetails view, whenever the derived status is Paused,
Stopped or Removed, all four control buttons (Pause, Stop, Edit, Remove) are
rendered disabled and the read-only warning banner is shown; the controls
are enabled exactly when the derived status is Active — so no manual
Paused-to-Active or Stopped-to-Active resume can be initiated from this
view. -/
theorem botdetails_inactive_readonly (botId : String) :
    ((derivedStatus botId = .Paused ∨ derivedStatus botId = .Stopped ∨
        derivedStatus botId = .Removed) →
      pauseDisabled botId = true ∧ stopDisabled botId = true ∧
      editDisabled botId = true ∧ removeDisabled botId = true ∧
      warningBannerShown botId = true) ∧
    (pauseDisabled botId = false ↔ derivedStatus botId = .Active) := by
  cases hi : isInactive botId with
  | true =>
    have hne : derivedStatus botId ≠ .Active := by
      intro h
      unfold derivedStatus at h
      rw [if_pos hi] at h
      repeat' split at h
      all_goals simp_all
    refine ⟨fun _ => ⟨hi, hi, hi, hi, hi⟩, ?_, ?_⟩
    · intro h
      rw [show pauseDisabled botId = isInactive botId from rfl, hi] at h
      simp at h
    · intro h
      exact absurd h hne
  | false =>
    have hst : derivedStatus botId = .Active := by
      simp [derivedStatus, hi]
    refine ⟨fun h => ?_, ?_, ?_⟩
    · rw [hst] at h
      rcases h with h | h | h <;> simp at h
    · intro _
      exact hst
    · intro _
      show isInactive botId = false
      exact hi

/-- Witness for C9: a bot whose id marks it Paused has its controls disabled
and the banner shown, and an ordinary pair id keeps the controls enabled. -/
theorem botdetails_inactive_readonly_witness :
    derivedStatus ("BTC/USDC Paused") = .Paused ∧
    pauseDisabled ("BTC/USDC Paused") = true ∧
    warningBannerShown ("BTC/USDC Paused") = true ∧
    pauseDisabled ("SOL/USDC") = false := by
  have h1 := (botdetails_inactive_readonly ("BTC/USDC Paused")).1
    (Or.inl (by decide))
  have h2 := (botdetails_inactive_readonly ("SOL/USDC")).2.mpr (by decide)
  exact ⟨by decide, h1.1, h1.2.2.2.2, h2⟩

/-! ## C10: CreateBot guided flow -/

theorem handleChatSubmit_step_le (st : CreateBotState) (input : String)
    (h : st.step ≤ 5) : (handleChatSubmit st input).step ≤ 5 := by
  unfold handleChatSubmit
  repeat' split
  all_goals first | exact h | simp

theorem runChat_step_le (inputs : List String) : (runChat inputs).step ≤ 5 := by
  have gen : ∀ (l : List String) (st : CreateBotState), st.step ≤ 5 →
      (l.foldl handleChatSubmit st).step ≤ 5 := by
    intro l
    induction l with
    | nil => intro st h; exact h
    | cons a l ih =>
      intro st h
      exact ih _ (handleChatSubmit_step_le st a h)
  exact gen inputs initialCreateBotState (by decide)

/-- C10: in the CreateBot guided flow the step counter only ever takes
values 0 through 5 and advances by exactly one per non-blank submission,
filling pair, poolAddress, allocation, updateInterval, notes in that fixed
order (notes becoming empty when the lowercased input is no); once step
equals 5 every further submission leaves step and draft unchanged unless the
lowercased input equals restart, which resets step to 0 and every draft
field to the empty string. -/
theorem createbot_flow_behaviour (st : CreateBotState) (input : String) :
    (∀ inputs : List String, (runChat inputs).step ≤ 5) ∧
    (st.step ≤ 5 → (handleChatSubmit st input).step ≤ 5) ∧
    (blankInput input = false → st.step < 5 →
      (handleChatSubmit st input).step = st.step + 1) ∧
    (blankInput input = false → st.step = 0 →
      handleChatSubmit st input =
        ⟨1, ⟨input, st.botDraft.poolAddress, st.botDraft.allocation,
             st.botDraft.updateInterval, st.botDraft.notes⟩⟩) ∧
    (blankInput input = false → st.step = 1 →
      handleChatSubmit st input =
        ⟨2, ⟨st.botDraft.pair, input, st.botDraft.allocation,
             st.botDraft.updateInterval, st.botDraft.notes⟩⟩) ∧
    (blankInput input = false → st.step = 2 →
      handleChatSubmit st input =
        ⟨3, ⟨st.botDraft.pair, st.botDraft.poolAddress, input,
             st.botDraft.updateInterval, st.botDraft.notes⟩⟩) ∧
    (blankInput input = false → st.step = 3 →
      handleChatSubmit st input =
        ⟨4, ⟨st.botDraft.pair, st.botDraft.poolAddress, st.botDraft.allocation,
             input, st.botDraft.notes⟩⟩) ∧
    (blankInput input = false → st.step = 4 →
      handleChatSubmit st input =
        ⟨5, ⟨st.botDraft.pair, st.botDraft.poolAddress, st.botDraft.allocation,
             st.botDraft.updateInterval,
             if lowercase input = "no" then "" else input⟩⟩) ∧
    (st.step = 5 → lowercase input ≠ "restart" → handleChatSubmit st input = st) ∧
    (st.step = 5 → blankInput input = false → lowercase input = "restart" →
      handleChatSubmit st input = ⟨0, emptyDraft⟩) := by
  refine ⟨runChat_step_le, handleChatSubmit_step_le st input,
    ?_, ?_, ?_, ?_, ?_, ?_, ?_, ?_⟩
  · intro hb hlt
    have hcase : st.step = 0 ∨ st.step = 1 ∨ st.step = 2 ∨ st.step = 3 ∨
        st.step = 4 := by omega
    rcases hcase with h | h | h | h | h <;> simp [handleChatSubmit, hb, h]
  · intro hb h
    simp [handleChatSubmit, hb, h]
  · intro hb h
    simp [handleChatSubmit, hb, h]
  · intro hb h
    simp [handleChatSubmit, hb, h]
  · intro hb h
    simp [handleChatSubmit, hb, h]
  · intro hb h
    simp [handleChatSubmit, hb, h]
  · intro h5 hr
    by_cases hb : blankInput input = true
    · simp [handleChatSubmit, hb]
    · simp [handleChatSubmit, hb, h5, hr]
  · intro h5 hb hr
    simp [handleChatSubmit, hb, h5, hr]

/-- Witness for C10: submitting a pair on step 0 stores it in the draft and
advances to step 1. -/
theorem createbot_flow_behaviour_witness :
    blankInput ("SOL/USDC") = false ∧
    handleChatSubmit ⟨0, emptyDraft⟩ ("SOL/USDC") =
      ⟨1, ⟨"SOL/USDC", "", "", "", ""⟩⟩ := by
  refine ⟨by decide, ?_⟩
  have h := (createbot_flow_behaviour ⟨0, emptyDraft⟩ ("SOL/USDC")).2.2.2.1
    (by decide) rfl
  exact h

end Cryptograna






